import Mathlib

/-!
# Verification of the TailRecord binary codec

Shallow embedding of `logdevice/common/TailRecord.cpp`: the tail-record data
model, its serialize/deserialize wire codec over reader/writer stream
collaborators, content equality, and the payload-ownership constructors.

The companion header `TailRecord.h` and the stream collaborators
(`ProtocolReader`, `ProtocolWriter`, `PayloadHolder`, `ZeroCopiedRecord`) are
not part of the sources; those parts are modelled from the specification and
are marked as such in their doc comments. Machine integers are modelled as
`Nat` with explicit reduction modulo `2 ^ w` at the points where the source
performs fixed-width writes or narrowing casts.
-/

/-- Error codes of the codec (`E::INVALID_PARAM`, `E::BADMSG`). -/
inductive ECode where
  | INVALID_PARAM
  | BADMSG
  deriving DecidableEq, Repr

/-- Little-endian image of a machine integer written as `k` bytes
(fixed-width write of the lowest `k * 8` bits). -/
def leBytes : Nat → Nat → List Nat
  | 0, _ => []
  | k + 1, n => n % 256 :: leBytes k (n / 256)

/-- Value of a little-endian byte list (fixed-width read). -/
def leVal : List Nat → Nat
  | [] => 0
  | b :: bs => b % 256 + 256 * leVal bs

/-- Modelled from the spec: `TailRecordHeader` from the missing `TailRecord.h`.
Fixed-layout value type: log id, lsn, timestamp, the 64-bit union field
(`offset_within_epoch` / `byte_offset`, selected by the `OFFSET_WITHIN_EPOCH`
flag) and a 32-bit flags bitset. -/
structure TailRecordHeader where
  log_id : Nat
  lsn : Nat
  timestamp : Nat
  u : Nat
  flags : Nat
  deriving DecidableEq, Repr

/-- Modelled from the spec: the reserved invalid sequence-number sentinel
(`LSN_INVALID`). -/
def LSN_INVALID : Nat := 0

/-- Modelled from the spec: flag bit selecting the union interpretation. -/
def TailRecordHeader.OFFSET_WITHIN_EPOCH : Nat := 1

/-- Modelled from the spec: flag bit marking logical payload presence. -/
def TailRecordHeader.HAS_PAYLOAD : Nat := 2

/-- Modelled from the spec: wire-only flag bit announcing a blob section. -/
def TailRecordHeader.INCLUDE_BLOB : Nat := 4

/-- Modelled from the spec: mask of all flag bits this version understands. -/
def TailRecordHeader.ALL_KNOWN_FLAGS : Nat := 7

/-- All ones in the 32-bit flags field (`flags_t` is 32 bits wide). -/
def FLAGS_MASK : Nat := 2 ^ 32 - 1

/-- Modelled from the spec: `sizeof(TailRecordHeader)` — four 64-bit fields,
the 32-bit flags and 4 bytes of (zero) padding. -/
def TailRecordHeader.sizeBytes : Nat := 40

/-- Modelled from the spec: the stable-byte-order wire image of the header
(fields in declaration order, little endian, padding written as zero). -/
def headerBytes (h : TailRecordHeader) : List Nat :=
  leBytes 8 h.log_id ++ leBytes 8 h.lsn ++ leBytes 8 h.timestamp ++
    leBytes 8 h.u ++ leBytes 4 h.flags ++ [0, 0, 0, 0]

/-- Reinterpretation of (at least) `TailRecordHeader.sizeBytes` raw bytes as a
header, inverse of `headerBytes` on in-range fields. -/
def decodeHeader (bs : List Nat) : TailRecordHeader :=
  { log_id := leVal (bs.take 8)
    lsn := leVal ((bs.drop 8).take 8)
    timestamp := leVal ((bs.drop 16).take 8)
    u := leVal ((bs.drop 24).take 8)
    flags := leVal ((bs.drop 32).take 4) }

/-- Modelled from the spec: the owned-buffer provider (`PayloadHolder`): a
contiguous owned payload with a flat-view accessor and an
"is this backed by an evbuffer (non-linear network buffer)" predicate. -/
structure PayloadHolder where
  bytes : List Nat
  evbuffer : Bool
  deriving DecidableEq, Repr

/-- Source `PayloadHolder::getFlatPayload()` — the flat view of the owned bytes. -/
def PayloadHolder.getFlatPayload (p : PayloadHolder) : List Nat := p.bytes

/-- Source `PayloadHolder::isEvbuffer()`. -/
def PayloadHolder.isEvbuffer (p : PayloadHolder) : Bool := p.evbuffer

/-- Modelled from the spec: the zero-copy handle (`ZeroCopiedRecord`):
a slice of externally managed memory plus denormalized copies of the
record's lsn, flags, timestamp and offset for the disposal path. -/
structure ZeroCopiedRecord where
  lsn : Nat
  flags : Nat
  timestamp : Nat
  offset_within_epoch : Nat
  payload_raw : List Nat
  deriving DecidableEq, Repr

/-- The tail record: header plus the two payload backing fields of the
source (`payload_` owned buffer, `zero_copied_record_` zero-copy handle). -/
structure TailRecord where
  header : TailRecordHeader
  payload_ : Option PayloadHolder
  zero_copied_record_ : Option ZeroCopiedRecord
  deriving DecidableEq, Repr

/-- Modelled from the spec: `TailRecord::isValid()` from the missing header —
a record is valid only if `lsn` is not the reserved invalid sentinel. -/
def TailRecord.isValid (r : TailRecord) : Bool :=
  r.header.lsn != LSN_INVALID

/-- The `hasPayload` test as a function of the flags bitset. -/
def hasPayloadFlags (flags : Nat) : Bool :=
  flags &&& TailRecordHeader.HAS_PAYLOAD != 0

/-- Modelled from the spec: `TailRecord::hasPayload()` from the missing
header — logical payload presence is the `HAS_PAYLOAD` header flag. -/
def TailRecord.hasPayload (r : TailRecord) : Bool :=
  hasPayloadFlags r.header.flags

/-- The cleared header: every field zero; its lsn is the invalid sentinel. -/
def emptyHeader : TailRecordHeader :=
  { log_id := 0, lsn := 0, timestamp := 0, u := 0, flags := 0 }

/-- Modelled from the spec: the state `TailRecord::reset()` (missing header)
leaves behind — header cleared to the invalid sentinel, no payload backing. -/
def emptyTailRecord : TailRecord :=
  { header := emptyHeader, payload_ := none, zero_copied_record_ := none }

/-- Modelled from the spec: `TailRecord::expectedRecordSizeInBuffer` from the
missing header — the full §6 wire-frame size: the fixed header, and when a
blob is present also the 32-bit `blob_size` field and `blob_size` bytes of
blob. -/
def expectedRecordSizeInBuffer (blob_size : Nat) : Nat :=
  TailRecordHeader.sizeBytes + (if blob_size > 0 then 4 + blob_size else 0)

/-- Modelled from the spec: the writer collaborator (`ProtocolWriter`) — a
byte sink plus an error flag; writes are no-ops once the error flag is set. -/
structure ProtocolWriter where
  sink : List Nat
  err : Option ECode
  deriving DecidableEq, Repr

/-- Append bytes to the sink (`ProtocolWriter::write` /
`writeWithoutCopy`, which is functionally equivalent per the spec). -/
def ProtocolWriter.writeB (w : ProtocolWriter) (bs : List Nat) : ProtocolWriter :=
  if w.err.isSome then w else { w with sink := w.sink ++ bs }

/-- Source `ProtocolWriter::setError`. -/
def ProtocolWriter.setError (w : ProtocolWriter) (e : ECode) : ProtocolWriter :=
  { w with err := some e }

/-- Modelled from the spec: the reader collaborator (`ProtocolReader`) — a
byte source with a `bytesRead` cursor, an error flag, and the trailing-bytes
policy switch. -/
structure ProtocolReader where
  data : List Nat
  pos : Nat
  err : Option ECode
  allowTrailing : Bool
  deriving DecidableEq, Repr

/-- Source `ProtocolReader::bytesRead()`. -/
def ProtocolReader.bytesRead (rd : ProtocolReader) : Nat := rd.pos

/-- A sequential typed read of `n` bytes: no-op once the error flag is set,
sets `BADMSG` past the end of input, otherwise yields the bytes and
advances the cursor. -/
def ProtocolReader.readBytes (n : Nat) (rd : ProtocolReader) :
    Option (List Nat) × ProtocolReader :=
  if rd.err.isSome then (none, rd)
  else if rd.pos + n ≤ rd.data.length then
    (some ((rd.data.drop rd.pos).take n), { rd with pos := rd.pos + n })
  else (none, { rd with err := some ECode.BADMSG })

/-- Source `ProtocolReader::setError`. -/
def ProtocolReader.setError (rd : ProtocolReader) (e : ECode) : ProtocolReader :=
  { rd with err := some e }

/-- Modelled from the spec: the explicit "consume `n` more padding bytes"
operation (`ProtocolReader::handleTrailingBytes`): skips `n` bytes; running
past the end of input is malformed. -/
def ProtocolReader.drainBytes (rd : ProtocolReader) (n : Nat) : ProtocolReader :=
  if rd.err.isSome then rd
  else if rd.pos + n ≤ rd.data.length then { rd with pos := rd.pos + n }
  else { rd with err := some ECode.BADMSG }

/-- Modelled from the spec: `PayloadHolder::deserialize` — given the reader, a
declared length and the zero-copy request flag, produces an owned payload
buffer by consuming `size` bytes (empty when the reader has failed). -/
def PayloadHolder.deserialize (rd : ProtocolReader) (size : Nat) (zero_copy : Bool) :
    PayloadHolder × ProtocolReader :=
  match ProtocolReader.readBytes size rd with
  | (some bs, rd1) => ({ bytes := bs, evbuffer := zero_copy }, rd1)
  | (none, rd1) => ({ bytes := [], evbuffer := zero_copy }, rd1)

/-- Source `TailRecord::getPayloadSlice()`: zero-length slice when the header marks
"no payload", otherwise a view into whichever backing variant is populated. -/
def TailRecord.getPayloadSlice (r : TailRecord) : List Nat :=
  if !r.hasPayload then []
  else
    match r.zero_copied_record_ with
    | some z => z.payload_raw
    | none =>
      match r.payload_ with
      | some p => p.getFlatPayload
      | none => []

/-- Source `TailRecord::calculateBlobSize()`: 0 without payload, otherwise the
payload size (narrowed to the 32-bit `blob_size_t`) plus
`sizeof(payload_size_t)`, in 32-bit arithmetic. -/
def TailRecord.calculateBlobSize (r : TailRecord) : Nat :=
  if !r.hasPayload then 0
  else (r.getPayloadSlice.length % 2 ^ 32 + 4) % 2 ^ 32

/-- Source `TailRecord::serialize`: reject invalid records with `INVALID_PARAM`;
otherwise write a header copy carrying `INCLUDE_BLOB` iff a blob follows,
then the blob section (`blob_size`, `payload_size`, payload bytes). -/
def TailRecord.serialize (r : TailRecord) (w : ProtocolWriter) : ProtocolWriter :=
  if !r.isValid then w.setError ECode.INVALID_PARAM
  else
    let blob_size := r.calculateBlobSize
    let write_header :=
      if blob_size > 0 then
        { r.header with flags := r.header.flags ||| TailRecordHeader.INCLUDE_BLOB }
      else r.header
    let w1 := w.writeB (headerBytes write_header)
    if blob_size > 0 then
      let w2 := w1.writeB (leBytes 4 blob_size)
      let payload_slice := r.getPayloadSlice
      let payload_size := payload_slice.length % 2 ^ 32
      let w3 := w2.writeB (leBytes 4 payload_size)
      w3.writeB payload_slice
    else w1

/-- The record state at line 147 of the source: the decoded header with
`INCLUDE_BLOB` cleared (`header.flags &= ~INCLUDE_BLOB`, purely a wire
signal) together with whichever payload backing the blob section produced. -/
def recordAfterClear (header : TailRecordHeader) (p : Option PayloadHolder)
    (z : Option ZeroCopiedRecord) : TailRecord :=
  { header := { header with
      flags := header.flags &&& (FLAGS_MASK ^^^ TailRecordHeader.INCLUDE_BLOB) }
    payload_ := p
    zero_copied_record_ := z }

/-- The body of `TailRecord::deserialize` up to and including the clearing of
`INCLUDE_BLOB` (lines 104–147): reset, header read, blob-section reads and
payload reconstruction. Returns the record state, the reader, and the
`blob_size` local (0 when its read did not happen or failed). -/
def TailRecord.deserializeCore (rd0 : ProtocolReader) (evbuffer_zero_copy : Bool) :
    TailRecord × ProtocolReader × Nat :=
  match ProtocolReader.readBytes TailRecordHeader.sizeBytes rd0 with
  | (none, rd1) => (emptyTailRecord, rd1, 0)
  | (some hb, rd1) =>
    let header := decodeHeader hb
    if header.flags &&& TailRecordHeader.INCLUDE_BLOB != 0 then
      match ProtocolReader.readBytes 4 rd1 with
      | (bsb, rd2) =>
        let blob_size := match bsb with | some l => leVal l | none => 0
        if hasPayloadFlags header.flags then
          match ProtocolReader.readBytes 4 rd2 with
          | (psb, rd3) =>
            let payload_size := match psb with | some l => leVal l | none => 0
            let zc := if payload_size == 0 then false else evbuffer_zero_copy
            match PayloadHolder.deserialize rd3 payload_size zc with
            | (ph, rd4) =>
              if zc then
                (recordAfterClear header none
                   (some { lsn := header.lsn, flags := 0,
                           timestamp := header.timestamp,
                           offset_within_epoch := header.u,
                           payload_raw := ph.bytes }),
                 rd4, blob_size)
              else (recordAfterClear header (some ph) none, rd4, blob_size)
        else (recordAfterClear header none none, rd2, blob_size)
    else (recordAfterClear header none none, rd1, 0)

/-- The tail of `TailRecord::deserialize` (lines 149–167): the `CHECK_READER`
after the blob section, the forward-compatibility size accounting, the
trailing-bytes policy switch and the padding drain. The third component is
the thread-local `err` variable (`E::BADMSG` on the `CHECK_READER` paths). -/
def TailRecord.finishDeserialize (base : Nat) (r : TailRecord)
    (rd : ProtocolReader) (blob_size : Nat) :
    TailRecord × ProtocolReader × Option ECode :=
  if rd.err.isSome then (r, rd, some ECode.BADMSG)
  else
    let bytes_consumed := rd.pos - base
    let bytes_expected := expectedRecordSizeInBuffer blob_size
    if bytes_expected < bytes_consumed then
      (r, rd.setError ECode.BADMSG, none)
    else
      let rd1 :=
        if r.header.flags &&& (FLAGS_MASK ^^^ TailRecordHeader.ALL_KNOWN_FLAGS) != 0
        then { rd with allowTrailing := true }
        else { rd with allowTrailing := false }
      (r, rd1.drainBytes (bytes_expected - bytes_consumed), none)

/-- Source `TailRecord::deserialize`: the record parameter is the prior state of
`*this`, discarded by the `reset()` at entry. The result is the rebuilt
record, the reader, and the thread-local `err` variable. -/
def TailRecord.deserialize (_r0 : TailRecord) (rd0 : ProtocolReader)
    (evbuffer_zero_copy : Bool) : TailRecord × ProtocolReader × Option ECode :=
  match TailRecord.deserializeCore rd0 evbuffer_zero_copy with
  | (r, rd, blob_size) => TailRecord.finishDeserialize rd0.pos r rd blob_size

/-- Source `TailRecord::sameContent`: validity parity, then a `memcmp` of the fixed
header images, then payload slice length plus bytes (no byte scan when the
length is zero). -/
def TailRecord.sameContent (a b : TailRecord) : Bool :=
  if (!a.isValid) != (!b.isValid) then false
  else if !a.isValid then true
  else if headerBytes a.header ≠ headerBytes b.header then false
  else
    let s := a.getPayloadSlice
    let s_r := b.getPayloadSlice
    s.length == s_r.length && (s.length == 0 || s == s_r)

/-- The flat-payload constructor
`TailRecord(const TailRecordHeader&, std::shared_ptr<PayloadHolder>)`.
The member initializer moves the (by-value) `payload` argument into
`payload_` when `hasPayload()`, so the `ld_check` in the body sees the
post-move argument. The second component is the value of that check. -/
def TailRecord.ofFlat (header_in : TailRecordHeader)
    (payload : Option PayloadHolder) : TailRecord × Bool :=
  let r : TailRecord :=
    { header := header_in
      payload_ := if hasPayloadFlags header_in.flags then payload else none
      zero_copied_record_ := none }
  let payloadAfterInit : Option PayloadHolder :=
    if hasPayloadFlags header_in.flags then none else payload
  let check :=
    match payloadAfterInit with
    | none => true
    | some p => !p.isEvbuffer
  (r, check)

/-- The zero-copy constructor
`TailRecord(const TailRecordHeader&, std::shared_ptr<ZeroCopiedRecord>)`. -/
def TailRecord.ofZeroCopied (header_in : TailRecordHeader)
    (record : Option ZeroCopiedRecord) : TailRecord :=
  { header := header_in
    payload_ := none
    zero_copied_record_ :=
      if hasPayloadFlags header_in.flags then record else none }

/-- The move constructor `TailRecord(TailRecord&&)` and (for a distinct
source) the move assignment `operator=(TailRecord&&)`: the destination takes
the source's header and both payload backing fields, then the source is
`reset()`. Returns (destination, source after the move). Aliasing
(self-assignment, guarded by `this != &rhs` in the source) has no
counterpart for distinct functional values. -/
def TailRecord.moveFrom (rhs : TailRecord) : TailRecord × TailRecord :=
  ({ header := rhs.header
     payload_ := rhs.payload_
     zero_copied_record_ := rhs.zero_copied_record_ },
   emptyTailRecord)

/-- All header fields fit their fixed-width wire columns. -/
def headerInRange (h : TailRecordHeader) : Prop :=
  h.log_id < 2 ^ 64 ∧ h.lsn < 2 ^ 64 ∧ h.timestamp < 2 ^ 64 ∧
    h.u < 2 ^ 64 ∧ h.flags < 2 ^ 32

instance (h : TailRecordHeader) : Decidable (headerInRange h) := by
  unfold headerInRange; infer_instance

/-- The full wire frame `serialize` emits for a valid record. -/
def wireOf (r : TailRecord) : List Nat :=
  if r.calculateBlobSize > 0 then
    headerBytes { r.header with
        flags := r.header.flags ||| TailRecordHeader.INCLUDE_BLOB } ++
      (leBytes 4 r.calculateBlobSize ++
        (leBytes 4 (r.getPayloadSlice.length % 2 ^ 32) ++ r.getPayloadSlice))
  else headerBytes r.header

/-- A concrete header announcing a blob section and nothing else. -/
def cHdrIB : TailRecordHeader :=
  { log_id := 0, lsn := 1, timestamp := 0, u := 0,
    flags := TailRecordHeader.INCLUDE_BLOB }

/-- A concrete valid record carrying a one-byte payload. -/
def cPayloadRecord : TailRecord :=
  { header := { log_id := 1, lsn := 2, timestamp := 3, u := 4,
                flags := TailRecordHeader.HAS_PAYLOAD }
    payload_ := some { bytes := [42], evbuffer := false }
    zero_copied_record_ := none }

/-- A concrete 40-byte input: a full header with `INCLUDE_BLOB` and
`HAS_PAYLOAD` set, with no blob bytes behind it. -/
def cHdrIBHP : TailRecordHeader :=
  { log_id := 0, lsn := 1, timestamp := 0, u := 0,
    flags := TailRecordHeader.INCLUDE_BLOB ||| TailRecordHeader.HAS_PAYLOAD }

/-- A concrete header carrying only an unknown flag bit (outside
`ALL_KNOWN_FLAGS`). -/
def cHdrUnknown : TailRecordHeader :=
  { log_id := 0, lsn := 1, timestamp := 0, u := 0, flags := 8 }

/-! ## Basic lemmas about the byte-level primitives -/

theorem leBytes_length (k n : Nat) : (leBytes k n).length = k := by
  induction k generalizing n with
  | zero => rfl
  | succ k ih => simp [leBytes, ih]

theorem leVal_leBytes (k n : Nat) : leVal (leBytes k n) = n % 256 ^ k := by
  induction k generalizing n with
  | zero => simp [leBytes, leVal, Nat.mod_one]
  | succ k ih =>
    have hpow : (256 : Nat) ^ (k + 1) = 256 * 256 ^ k := by
      rw [Nat.pow_succ, Nat.mul_comm]
    simp only [leBytes, leVal, ih, Nat.mod_mod, hpow, Nat.mod_mul]

theorem headerBytes_length (h : TailRecordHeader) : (headerBytes h).length = 40 := by
  simp [headerBytes, leBytes_length]

/-! ## Bit-level lemmas about the 32-bit flags field -/

theorem testBit_four (i : Nat) : Nat.testBit 4 i = decide (2 = i) := by
  rw [show (4 : Nat) = 2 ^ 2 from by norm_num, Nat.testBit_two_pow]

theorem testBit_two (i : Nat) : Nat.testBit 2 i = decide (1 = i) := by
  rw [show (2 : Nat) = 2 ^ 1 from by norm_num, Nat.testBit_two_pow]

theorem testBit_flags_mask (i : Nat) : Nat.testBit FLAGS_MASK i = decide (i < 32) := by
  rw [FLAGS_MASK, Nat.testBit_two_pow_sub_one]

theorem testBit_of_lt_flags (x i : Nat) (hx : x < 2 ^ 32) (hi : 32 ≤ i) :
    x.testBit i = false :=
  Nat.testBit_lt_two_pow
    (lt_of_lt_of_le hx (Nat.pow_le_pow_right (by norm_num) hi))

theorem flags_and_ib_zero_iff (x : Nat) :
    x &&& TailRecordHeader.INCLUDE_BLOB = 0 ↔ x.testBit 2 = false := by
  constructor
  · intro h
    have h2 : (x &&& TailRecordHeader.INCLUDE_BLOB).testBit 2 = false := by
      rw [h]; exact Nat.zero_testBit 2
    rw [TailRecordHeader.INCLUDE_BLOB, Nat.testBit_and, testBit_four] at h2
    simpa using h2
  · intro h
    apply Nat.eq_of_testBit_eq
    intro i
    rw [TailRecordHeader.INCLUDE_BLOB, Nat.testBit_and, testBit_four,
      Nat.zero_testBit]
    by_cases hi : i = 2
    · subst hi; simp [h]
    · simp [Ne.symm hi]

theorem flags_clear_ib_of_clear (x : Nat) (hx : x < 2 ^ 32)
    (h4 : x &&& TailRecordHeader.INCLUDE_BLOB = 0) :
    x &&& (FLAGS_MASK ^^^ TailRecordHeader.INCLUDE_BLOB) = x := by
  have hbit : x.testBit 2 = false := (flags_and_ib_zero_iff x).mp h4
  apply Nat.eq_of_testBit_eq
  intro i
  rw [Nat.testBit_and, Nat.testBit_xor, TailRecordHeader.INCLUDE_BLOB,
    testBit_four, testBit_flags_mask]
  by_cases hi : i = 2
  · subst hi; simp [hbit]
  · by_cases hlt : i < 32
    · simp [hlt, Ne.symm hi]
    · rw [testBit_of_lt_flags x i hx (by omega)]
      simp

theorem flags_or_ib_clear (x : Nat) (hx : x < 2 ^ 32)
    (h4 : x &&& TailRecordHeader.INCLUDE_BLOB = 0) :
    (x ||| TailRecordHeader.INCLUDE_BLOB) &&&
      (FLAGS_MASK ^^^ TailRecordHeader.INCLUDE_BLOB) = x := by
  have hbit : x.testBit 2 = false := (flags_and_ib_zero_iff x).mp h4
  apply Nat.eq_of_testBit_eq
  intro i
  rw [Nat.testBit_and, Nat.testBit_or, Nat.testBit_xor,
    TailRecordHeader.INCLUDE_BLOB, testBit_four, testBit_flags_mask]
  by_cases hi : i = 2
  · subst hi; simp [hbit]
  · by_cases hlt : i < 32
    · simp [hlt, Ne.symm hi]
    · rw [testBit_of_lt_flags x i hx (by omega)]
      simp [Ne.symm hi, hlt]

theorem flags_or_ib_has_payload (x : Nat) :
    (x ||| TailRecordHeader.INCLUDE_BLOB) &&& TailRecordHeader.HAS_PAYLOAD =
      x &&& TailRecordHeader.HAS_PAYLOAD := by
  apply Nat.eq_of_testBit_eq
  intro i
  rw [Nat.testBit_and, Nat.testBit_and, Nat.testBit_or,
    TailRecordHeader.INCLUDE_BLOB, TailRecordHeader.HAS_PAYLOAD,
    testBit_four, testBit_two]
  by_cases hi : i = 2
  · subst hi; simp
  · simp [Ne.symm hi]

theorem flags_or_ib_detected (x : Nat) :
    (x ||| TailRecordHeader.INCLUDE_BLOB) &&& TailRecordHeader.INCLUDE_BLOB =
      TailRecordHeader.INCLUDE_BLOB := by
  apply Nat.eq_of_testBit_eq
  intro i
  rw [Nat.testBit_and, Nat.testBit_or, TailRecordHeader.INCLUDE_BLOB,
    testBit_four]
  by_cases hi : i = 2
  · subst hi; simp
  · simp [Ne.symm hi]

/-! ## Running the reader over a structured frame -/

theorem readBytes_chunk (dt : List Nat) (p q : Nat) (t : Bool)
    (pre mid post : List Nat) (n : Nat)
    (hd : dt = pre ++ (mid ++ post)) (hpos : p = pre.length)
    (hn : mid.length = n) (hq : q = p + n) :
    ProtocolReader.readBytes n ⟨dt, p, none, t⟩ = (some mid, ⟨dt, q, none, t⟩) := by
  have hle : p + n ≤ dt.length := by
    rw [hd, hpos, List.length_append, List.length_append]
    omega
  have htake : (dt.drop p).take n = mid := by
    rw [hd, hpos, List.drop_left, List.take_left' hn]
  rw [ProtocolReader.readBytes]
  simp [hle, htake, hq]

theorem readBytes_fail (dt : List Nat) (p : Nat) (t : Bool) (n : Nat)
    (hd : dt.length < p + n) :
    ProtocolReader.readBytes n ⟨dt, p, none, t⟩ =
      (none, ⟨dt, p, some ECode.BADMSG, t⟩) := by
  rw [ProtocolReader.readBytes]
  simp only [Option.isSome_none, Bool.false_eq_true, if_false]
  rw [if_neg (by simpa using by omega)]

theorem readBytes_err (dt : List Nat) (p : Nat) (t : Bool) (n : Nat) (e : ECode) :
    ProtocolReader.readBytes n ⟨dt, p, some e, t⟩ = (none, ⟨dt, p, some e, t⟩) := by
  rw [ProtocolReader.readBytes]
  rfl

/-! ## Decoding the encoded header -/

theorem decodeHeader_headerBytes (h : TailRecordHeader) (hr : headerInRange h) :
    decodeHeader (headerBytes h) = h := by
  obtain ⟨a, b, c, d, e⟩ := h
  obtain ⟨h1, h2, h3, h4, h5⟩ := hr
  simp only at h1 h2 h3 h4 h5
  have e64 : (256 : Nat) ^ 8 = 2 ^ 64 := by norm_num
  have e32 : (256 : Nat) ^ 4 = 2 ^ 32 := by norm_num
  have l8 : ∀ n : Nat, (leBytes 8 n).length = 8 := fun n => leBytes_length 8 n
  rw [decodeHeader, headerBytes]
  simp only [TailRecordHeader.mk.injEq]
  refine ⟨?_, ?_, ?_, ?_, ?_⟩
  · rw [List.append_assoc, List.append_assoc, List.append_assoc,
      List.append_assoc, List.take_left' (l8 _), leVal_leBytes, e64,
      Nat.mod_eq_of_lt h1]
  · rw [List.append_assoc, List.append_assoc, List.append_assoc,
      List.append_assoc, List.drop_left' (l8 _), List.take_left' (l8 _),
      leVal_leBytes, e64, Nat.mod_eq_of_lt h2]
  · rw [show (16 : Nat) = 8 + 8 from rfl, ← List.drop_drop,
      List.append_assoc, List.append_assoc, List.append_assoc,
      List.append_assoc, List.drop_left' (l8 _), List.drop_left' (l8 _),
      List.take_left' (l8 _), leVal_leBytes, e64, Nat.mod_eq_of_lt h3]
  · rw [show (24 : Nat) = 8 + 16 from rfl, ← List.drop_drop,
      show (16 : Nat) = 8 + 8 from rfl, ← List.drop_drop,
      List.append_assoc, List.append_assoc,
      List.append_assoc, List.append_assoc, List.drop_left' (l8 _),
      List.drop_left' (l8 _), List.drop_left' (l8 _), List.take_left' (l8 _),
      leVal_leBytes, e64, Nat.mod_eq_of_lt h4]
  · rw [show (32 : Nat) = 8 + 24 from rfl, ← List.drop_drop,
      show (24 : Nat) = 8 + 16 from rfl, ← List.drop_drop,
      show (16 : Nat) = 8 + 8 from rfl, ← List.drop_drop,
      List.append_assoc, List.append_assoc, List.append_assoc,
      List.append_assoc,
      List.drop_left' (l8 _), List.drop_left' (l8 _), List.drop_left' (l8 _),
      List.drop_left' (l8 _), List.take_left' (leBytes_length 4 _),
      leVal_leBytes, e32, Nat.mod_eq_of_lt h5]

/-! ## Characterizing the serializer output -/

theorem writeB_writeB (w : ProtocolWriter) (a b : List Nat) :
    (w.writeB a).writeB b = w.writeB (a ++ b) := by
  by_cases he : w.err.isSome
  · simp [ProtocolWriter.writeB, he]
  · simp [ProtocolWriter.writeB, he, List.append_assoc]

theorem serialize_eq_writeB (r : TailRecord) (w : ProtocolWriter)
    (hval : r.isValid = true) :
    r.serialize w = w.writeB (wireOf r) := by
  rw [TailRecord.serialize, hval]
  simp only [Bool.not_true, Bool.false_eq_true, if_false, wireOf]
  by_cases hb : r.calculateBlobSize > 0
  · simp only [if_pos hb, writeB_writeB, List.append_assoc]
  · simp only [if_neg hb]

theorem serialize_invalid (r : TailRecord) (w : ProtocolWriter)
    (hval : r.isValid = false) :
    r.serialize w = w.setError ECode.INVALID_PARAM := by
  rw [TailRecord.serialize, hval]
  rfl

theorem calculateBlobSize_of_payload (r : TailRecord)
    (hp : r.hasPayload = true) (hlen : r.getPayloadSlice.length + 4 < 2 ^ 32) :
    r.calculateBlobSize = r.getPayloadSlice.length + 4 := by
  rw [TailRecord.calculateBlobSize, hp]
  simp only [Bool.not_true, Bool.false_eq_true, if_false]
  rw [Nat.mod_eq_of_lt (by omega), Nat.mod_eq_of_lt (by omega)]

theorem calculateBlobSize_of_no_payload (r : TailRecord)
    (hp : r.hasPayload = false) : r.calculateBlobSize = 0 := by
  rw [TailRecord.calculateBlobSize, hp]
  rfl

theorem core_run_no_blob (h : TailRecordHeader) (post : List Nat) (b zc : Bool)
    (hr : headerInRange h) (hib : h.flags &&& TailRecordHeader.INCLUDE_BLOB = 0) :
    TailRecord.deserializeCore ⟨headerBytes h ++ post, 0, none, b⟩ zc =
      ({ header := h, payload_ := none, zero_copied_record_ := none },
       ⟨headerBytes h ++ post, 40, none, b⟩, 0) := by
  have hread := readBytes_chunk (headerBytes h ++ post) 0 40 b []
    (headerBytes h) post 40 (by simp) (by simp) (headerBytes_length h) (by omega)
  rw [TailRecord.deserializeCore]
  rw [show TailRecordHeader.sizeBytes = 40 from rfl]
  rw [hread]
  dsimp only
  rw [decodeHeader_headerBytes h hr]
  rw [hib]
  simp only [bne_self_eq_false, Bool.false_eq_true, if_false, recordAfterClear,
    flags_clear_ib_of_clear h.flags hr.2.2.2.2 hib]

theorem core_run_blob_owned (wh : TailRecordHeader) (P post : List Nat)
    (b zc : Bool) (bs ps : Nat)
    (hr : headerInRange wh)
    (hib : wh.flags &&& TailRecordHeader.INCLUDE_BLOB ≠ 0)
    (hhp : wh.flags &&& TailRecordHeader.HAS_PAYLOAD ≠ 0)
    (hbs : bs < 2 ^ 32) (hps : ps < 2 ^ 32) (hP : P.length = ps)
    (hzc : (if ps == 0 then false else zc) = false) :
    TailRecord.deserializeCore
      ⟨headerBytes wh ++ (leBytes 4 bs ++ (leBytes 4 ps ++ (P ++ post))),
       0, none, b⟩ zc =
      (recordAfterClear wh (some { bytes := P, evbuffer := false }) none,
       ⟨headerBytes wh ++ (leBytes 4 bs ++ (leBytes 4 ps ++ (P ++ post))),
        48 + ps, none, b⟩, bs) := by
  have e32 : (256 : Nat) ^ 4 = 2 ^ 32 := by norm_num
  have hread1 := readBytes_chunk
    (headerBytes wh ++ (leBytes 4 bs ++ (leBytes 4 ps ++ (P ++ post)))) 0 40 b
    [] (headerBytes wh) (leBytes 4 bs ++ (leBytes 4 ps ++ (P ++ post))) 40
    (by simp) (by simp) (headerBytes_length wh) (by omega)
  have hread2 := readBytes_chunk
    (headerBytes wh ++ (leBytes 4 bs ++ (leBytes 4 ps ++ (P ++ post)))) 40 44 b
    (headerBytes wh) (leBytes 4 bs) (leBytes 4 ps ++ (P ++ post)) 4
    rfl (headerBytes_length wh).symm (leBytes_length 4 bs) (by omega)
  have hread3 := readBytes_chunk
    (headerBytes wh ++ (leBytes 4 bs ++ (leBytes 4 ps ++ (P ++ post)))) 44 48 b
    (headerBytes wh ++ leBytes 4 bs) (leBytes 4 ps) (P ++ post) 4
    (by simp) (by simp [headerBytes_length, leBytes_length])
    (leBytes_length 4 ps) (by omega)
  have hread4 := readBytes_chunk
    (headerBytes wh ++ (leBytes 4 bs ++ (leBytes 4 ps ++ (P ++ post)))) 48
    (48 + ps) b
    ((headerBytes wh ++ leBytes 4 bs) ++ leBytes 4 ps) P post ps
    (by simp) (by simp [headerBytes_length, leBytes_length]) hP rfl
  rw [TailRecord.deserializeCore]
  rw [show TailRecordHeader.sizeBytes = 40 from rfl]
  rw [hread1]
  dsimp only
  rw [decodeHeader_headerBytes wh hr]
  rw [show (wh.flags &&& TailRecordHeader.INCLUDE_BLOB != 0) = true from
    by simp [bne_iff_ne, hib]]
  rw [if_pos rfl]
  rw [hread2]
  dsimp only
  rw [show hasPayloadFlags wh.flags = true from
    by simp [hasPayloadFlags, bne_iff_ne, hhp]]
  rw [if_pos rfl]
  rw [hread3]
  dsimp only
  rw [leVal_leBytes, leVal_leBytes, e32, Nat.mod_eq_of_lt hbs,
    Nat.mod_eq_of_lt hps]
  rw [hzc]
  rw [PayloadHolder.deserialize]
  rw [hread4]
  dsimp only
  simp only [Bool.false_eq_true, if_false]

theorem core_run_blob_zerocopy (wh : TailRecordHeader) (P post : List Nat)
    (b zc : Bool) (bs ps : Nat)
    (hr : headerInRange wh)
    (hib : wh.flags &&& TailRecordHeader.INCLUDE_BLOB ≠ 0)
    (hhp : wh.flags &&& TailRecordHeader.HAS_PAYLOAD ≠ 0)
    (hbs : bs < 2 ^ 32) (hps : ps < 2 ^ 32) (hP : P.length = ps)
    (hzc : (if ps == 0 then false else zc) = true) :
    TailRecord.deserializeCore
      ⟨headerBytes wh ++ (leBytes 4 bs ++ (leBytes 4 ps ++ (P ++ post))),
       0, none, b⟩ zc =
      (recordAfterClear wh none
         (some { lsn := wh.lsn, flags := 0, timestamp := wh.timestamp,
                 offset_within_epoch := wh.u, payload_raw := P }),
       ⟨headerBytes wh ++ (leBytes 4 bs ++ (leBytes 4 ps ++ (P ++ post))),
        48 + ps, none, b⟩, bs) := by
  have e32 : (256 : Nat) ^ 4 = 2 ^ 32 := by norm_num
  have hread1 := readBytes_chunk
    (headerBytes wh ++ (leBytes 4 bs ++ (leBytes 4 ps ++ (P ++ post)))) 0 40 b
    [] (headerBytes wh) (leBytes 4 bs ++ (leBytes 4 ps ++ (P ++ post))) 40
    (by simp) (by simp) (headerBytes_length wh) (by omega)
  have hread2 := readBytes_chunk
    (headerBytes wh ++ (leBytes 4 bs ++ (leBytes 4 ps ++ (P ++ post)))) 40 44 b
    (headerBytes wh) (leBytes 4 bs) (leBytes 4 ps ++ (P ++ post)) 4
    rfl (headerBytes_length wh).symm (leBytes_length 4 bs) (by omega)
  have hread3 := readBytes_chunk
    (headerBytes wh ++ (leBytes 4 bs ++ (leBytes 4 ps ++ (P ++ post)))) 44 48 b
    (headerBytes wh ++ leBytes 4 bs) (leBytes 4 ps) (P ++ post) 4
    (by simp) (by simp [headerBytes_length, leBytes_length])
    (leBytes_length 4 ps) (by omega)
  have hread4 := readBytes_chunk
    (headerBytes wh ++ (leBytes 4 bs ++ (leBytes 4 ps ++ (P ++ post)))) 48
    (48 + ps) b
    ((headerBytes wh ++ leBytes 4 bs) ++ leBytes 4 ps) P post ps
    (by simp) (by simp [headerBytes_length, leBytes_length]) hP rfl
  rw [TailRecord.deserializeCore]
  rw [show TailRecordHeader.sizeBytes = 40 from rfl]
  rw [hread1]
  dsimp only
  rw [decodeHeader_headerBytes wh hr]
  rw [show (wh.flags &&& TailRecordHeader.INCLUDE_BLOB != 0) = true from
    by simp [bne_iff_ne, hib]]
  rw [if_pos rfl]
  rw [hread2]
  dsimp only
  rw [show hasPayloadFlags wh.flags = true from
    by simp [hasPayloadFlags, bne_iff_ne, hhp]]
  rw [if_pos rfl]
  rw [hread3]
  dsimp only
  rw [leVal_leBytes, leVal_leBytes, e32, Nat.mod_eq_of_lt hbs,
    Nat.mod_eq_of_lt hps]
  rw [hzc]
  rw [PayloadHolder.deserialize]
  rw [hread4]
  dsimp only
  simp only [if_pos rfl, if_true]

/-! ## The finish stage and structural facts about the core -/

theorem finish_run (base : Nat) (r : TailRecord) (dt : List Nat) (p q : Nat)
    (b : Bool) (bsz : Nat) (tflag : Bool)
    (hc : p - base ≤ expectedRecordSizeInBuffer bsz)
    (hq : q = p + (expectedRecordSizeInBuffer bsz - (p - base)))
    (hdr : q ≤ dt.length)
    (ht : tflag = (r.header.flags &&&
      (FLAGS_MASK ^^^ TailRecordHeader.ALL_KNOWN_FLAGS) != 0)) :
    TailRecord.finishDeserialize base r ⟨dt, p, none, b⟩ bsz =
      (r, ⟨dt, q, none, tflag⟩, none) := by
  rw [TailRecord.finishDeserialize]
  dsimp only
  rw [if_neg (by simp)]
  rw [if_neg (by omega)]
  rcases hfl : (r.header.flags &&&
      (FLAGS_MASK ^^^ TailRecordHeader.ALL_KNOWN_FLAGS) != 0) with _ | _
  · rw [if_neg (by simp [hfl])]
    rw [ProtocolReader.drainBytes]
    dsimp only
    rw [if_neg (by simp)]
    rw [if_pos (by omega)]
    simp [ht, hfl, hq]
  · rw [if_pos (by simp [hfl])]
    rw [ProtocolReader.drainBytes]
    dsimp only
    rw [if_neg (by simp)]
    rw [if_pos (by omega)]
    simp [ht, hfl, hq]

theorem readBytes_none_err (n : Nat) (rd : ProtocolReader)
    (h : (ProtocolReader.readBytes n rd).1 = none) :
    (ProtocolReader.readBytes n rd).2.err.isSome = true := by
  rw [ProtocolReader.readBytes] at *
  by_cases he : rd.err.isSome
  · simp [he]
  · rw [if_neg he] at h ⊢
    by_cases hle : rd.pos + n ≤ rd.data.length
    · rw [if_pos hle] at h
      simp at h
    · rw [if_neg hle]
      rfl

theorem readBytes_pos_le (n : Nat) (rd : ProtocolReader) :
    rd.pos ≤ (ProtocolReader.readBytes n rd).2.pos := by
  rw [ProtocolReader.readBytes]
  by_cases he : rd.err.isSome
  · rw [if_pos he]
  · rw [if_neg he]
    by_cases hle : rd.pos + n ≤ rd.data.length
    · rw [if_pos hle]
      dsimp only
      omega
    · rw [if_neg hle]

theorem payload_deserialize_pos_le (rd : ProtocolReader) (n : Nat) (zc : Bool) :
    rd.pos ≤ (PayloadHolder.deserialize rd n zc).2.pos := by
  rw [PayloadHolder.deserialize]
  have h := readBytes_pos_le n rd
  rcases hrb : ProtocolReader.readBytes n rd with ⟨o, rd1⟩
  rw [hrb] at h
  cases o
  · exact h
  · exact h

theorem core_pos_mono (rd0 : ProtocolReader) (zc : Bool) :
    rd0.pos ≤ (TailRecord.deserializeCore rd0 zc).2.1.pos := by
  rw [TailRecord.deserializeCore]
  rcases hrb : ProtocolReader.readBytes TailRecordHeader.sizeBytes rd0 with ⟨o, rd1⟩
  have h0 : rd0.pos ≤ rd1.pos := by
    have h := readBytes_pos_le TailRecordHeader.sizeBytes rd0
    rw [hrb] at h
    exact h
  cases o with
  | none => exact h0
  | some hb =>
    dsimp only
    split
    · rcases hrb2 : ProtocolReader.readBytes 4 rd1 with ⟨o2, rd2⟩
      have h1 : rd1.pos ≤ rd2.pos := by
        have h := readBytes_pos_le 4 rd1
        rw [hrb2] at h
        exact h
      dsimp only
      split
      · rcases hrb3 : ProtocolReader.readBytes 4 rd2 with ⟨o3, rd3⟩
        have h2 : rd2.pos ≤ rd3.pos := by
          have h := readBytes_pos_le 4 rd2
          rw [hrb3] at h
          exact h
        dsimp only
        split
        all_goals split
        all_goals dsimp only
        all_goals refine Nat.le_trans (Nat.le_trans (Nat.le_trans h0 h1) h2) ?_
        all_goals exact payload_deserialize_pos_le rd3 _ _
      · dsimp only
        omega
    · dsimp only
      omega

theorem mask_and_ib_zero :
    (FLAGS_MASK ^^^ TailRecordHeader.INCLUDE_BLOB) &&&
      TailRecordHeader.INCLUDE_BLOB = 0 := by
  apply Nat.eq_of_testBit_eq
  intro i
  rw [Nat.testBit_and, Nat.testBit_xor, TailRecordHeader.INCLUDE_BLOB,
    testBit_four, testBit_flags_mask, Nat.zero_testBit]
  by_cases hi : i = 2
  · subst hi; simp
  · simp [Ne.symm hi]

theorem recordAfterClear_ib (h : TailRecordHeader) (p : Option PayloadHolder)
    (z : Option ZeroCopiedRecord) :
    (recordAfterClear h p z).header.flags &&& TailRecordHeader.INCLUDE_BLOB = 0 := by
  rw [recordAfterClear]
  dsimp only
  rw [Nat.land_assoc, mask_and_ib_zero, Nat.and_zero]

theorem core_ib_clear (rd0 : ProtocolReader) (zc : Bool) :
    (TailRecord.deserializeCore rd0 zc).1.header.flags &&&
      TailRecordHeader.INCLUDE_BLOB = 0 := by
  rw [TailRecord.deserializeCore]
  rcases hrb : ProtocolReader.readBytes TailRecordHeader.sizeBytes rd0 with ⟨o, rd1⟩
  cases o with
  | none =>
    dsimp only
    decide
  | some hb =>
    dsimp only
    split
    · rcases hrb2 : ProtocolReader.readBytes 4 rd1 with ⟨o2, rd2⟩
      dsimp only
      split
      · rcases hrb3 : ProtocolReader.readBytes 4 rd2 with ⟨o3, rd3⟩
        dsimp only
        split
        all_goals split
        all_goals dsimp only
        all_goals exact recordAfterClear_ib _ _ _
      · exact recordAfterClear_ib _ _ _
    · exact recordAfterClear_ib _ _ _

theorem deserialize_ib_clear (r0 : TailRecord) (rd0 : ProtocolReader) (zc : Bool) :
    (TailRecord.deserialize r0 rd0 zc).1.header.flags &&&
      TailRecordHeader.INCLUDE_BLOB = 0 := by
  rw [TailRecord.deserialize]
  rcases hc : TailRecord.deserializeCore rd0 zc with ⟨r, rd, bs⟩
  have hclear := core_ib_clear rd0 zc
  rw [hc] at hclear
  dsimp only at hclear ⊢
  unfold TailRecord.finishDeserialize
  split
  · exact hclear
  · dsimp only
    split
    · exact hclear
    · split
      all_goals exact hclear

theorem sameContent_of_valid (a b : TailRecord) (ha : a.isValid = true)
    (hb : b.isValid = true)
    (hh : headerBytes a.header = headerBytes b.header)
    (hs : a.getPayloadSlice = b.getPayloadSlice) :
    a.sameContent b = true := by
  rw [TailRecord.sameContent, ha, hb]
  simp [hh, hs]

/-! ## The claims -/

/-- Claim C2: serializing a record whose lsn is the invalid sentinel sets the
writer's error flag to `INVALID_PARAM` and appends no bytes to the sink. -/
theorem serialize_invalid_rejected (r : TailRecord) (w : ProtocolWriter)
    (hval : r.isValid = false) :
    (r.serialize w).err = some ECode.INVALID_PARAM ∧
      (r.serialize w).sink = w.sink := by
  rw [serialize_invalid r w hval]
  exact ⟨rfl, rfl⟩

/-- Witness for C2: a concrete invalid record (lsn = 0) against a concrete
non-empty sink. -/
theorem serialize_invalid_rejected_witness :
    ((TailRecord.serialize
        { header := { log_id := 3, lsn := 0, timestamp := 5, u := 6, flags := 0 }
          payload_ := none, zero_copied_record_ := none }
        { sink := [9, 9], err := none }).err = some ECode.INVALID_PARAM ∧
      (TailRecord.serialize
        { header := { log_id := 3, lsn := 0, timestamp := 5, u := 6, flags := 0 }
          payload_ := none, zero_copied_record_ := none }
        { sink := [9, 9], err := none }).sink = [9, 9]) :=
  serialize_invalid_rejected _ _ (by decide)

theorem slice_check_iff (s t : List Nat) :
    ((s.length == t.length) && ((s.length == 0) || s == t)) = true ↔ s = t := by
  constructor
  · intro h
    simp only [Bool.and_eq_true, Bool.or_eq_true, beq_iff_eq] at h
    obtain ⟨hlen, h2⟩ := h
    rcases h2 with h0 | he
    · have hs : s.length = 0 := h0
      have ht : t.length = 0 := by omega
      rw [List.length_eq_zero] at hs ht
      rw [hs, ht]
    · exact he
  · intro h
    subst h
    simp

/-- Claim C6: `sameContent` is true when both records are invalid, false when
exactly one is invalid, and for two valid records it is true exactly when the
fixed header images are byte-identical and the payload slices are equal
(as length plus bytes, the zero-length case included), whichever backing
variant produces each slice. -/
theorem sameContent_characterization (a b : TailRecord) :
    a.sameContent b = true ↔
      ((a.isValid = false ∧ b.isValid = false) ∨
       (a.isValid = true ∧ b.isValid = true ∧
        headerBytes a.header = headerBytes b.header ∧
        a.getPayloadSlice = b.getPayloadSlice)) := by
  rw [TailRecord.sameContent]
  rcases ha : a.isValid with _ | _
  · rcases hb : b.isValid with _ | _
    · simp [ha, hb]
    · simp [ha, hb]
  · rcases hb : b.isValid with _ | _
    · simp [ha, hb]
    · by_cases hh : headerBytes a.header = headerBytes b.header
      · simp [ha, hb, hh]
        constructor
        · rintro ⟨hlen, hor⟩
          rcases hor with h0 | he
          · rw [h0] at hlen ⊢
            simp only [List.length_nil] at hlen
            have hb0 : b.getPayloadSlice = [] := by
              rw [← List.length_eq_zero]
              omega
            rw [hb0]
          · exact he
        · intro h
          rw [h]
          simp
      · simp [ha, hb, hh]

/-- Claim C7 (code bug): the flat-payload constructor's `ld_check` is meant to
reject evbuffer-backed payloads ("should be a flat payload for this
constructor"), but the member initializer has already moved the argument when
`HAS_PAYLOAD` is set, so the check inspects a null moved-from pointer and
passes even though the record now stores an evbuffer-backed payload. -/
theorem flat_ctor_check_passes_on_evbuffer :
    (TailRecord.ofFlat
        { log_id := 1, lsn := 1, timestamp := 1, u := 0,
          flags := TailRecordHeader.HAS_PAYLOAD }
        (some { bytes := [1, 2, 3], evbuffer := true })).2 = true ∧
      (TailRecord.ofFlat
        { log_id := 1, lsn := 1, timestamp := 1, u := 0,
          flags := TailRecordHeader.HAS_PAYLOAD }
        (some { bytes := [1, 2, 3], evbuffer := true })).1.payload_ =
        some { bytes := [1, 2, 3], evbuffer := true } := by
  constructor
  · decide
  · decide

/-- Claim C9: moving a record transfers the header and both payload backing
fields to the destination and leaves the source reset: invalid header, no
owned buffer, no zero-copy handle. -/
theorem move_transfers_and_resets (rhs : TailRecord) :
    (TailRecord.moveFrom rhs).1 = rhs ∧
      (TailRecord.moveFrom rhs).2.isValid = false ∧
      (TailRecord.moveFrom rhs).2.payload_ = none ∧
      (TailRecord.moveFrom rhs).2.zero_copied_record_ = none :=
  ⟨rfl, rfl, rfl, rfl⟩

/-- Claim C10: with `HAS_PAYLOAD` clear both payload-taking constructors
store a null payload backing, discarding the supplied argument. -/
theorem ctors_discard_payload_without_flag (h : TailRecordHeader)
    (p : Option PayloadHolder) (z : Option ZeroCopiedRecord)
    (hfl : h.flags &&& TailRecordHeader.HAS_PAYLOAD = 0) :
    (TailRecord.ofFlat h p).1.payload_ = none ∧
      (TailRecord.ofFlat h p).1.zero_copied_record_ = none ∧
      (TailRecord.ofZeroCopied h z).payload_ = none ∧
      (TailRecord.ofZeroCopied h z).zero_copied_record_ = none := by
  have hhp : hasPayloadFlags h.flags = false := by
    simp [hasPayloadFlags, hfl]
  rw [TailRecord.ofFlat, TailRecord.ofZeroCopied]
  dsimp only
  rw [hhp]
  simp

/-- Witness for C10: a header with only `OFFSET_WITHIN_EPOCH` set and non-null
payload arguments of both kinds. -/
theorem ctors_discard_payload_without_flag_witness :
    ((TailRecord.ofFlat
        { log_id := 2, lsn := 3, timestamp := 4, u := 5,
          flags := TailRecordHeader.OFFSET_WITHIN_EPOCH }
        (some { bytes := [7], evbuffer := false })).1.payload_ = none ∧
      (TailRecord.ofFlat
        { log_id := 2, lsn := 3, timestamp := 4, u := 5,
          flags := TailRecordHeader.OFFSET_WITHIN_EPOCH }
        (some { bytes := [7], evbuffer := false })).1.zero_copied_record_ = none ∧
      (TailRecord.ofZeroCopied
        { log_id := 2, lsn := 3, timestamp := 4, u := 5,
          flags := TailRecordHeader.OFFSET_WITHIN_EPOCH }
        (some { lsn := 3, flags := 0, timestamp := 4, offset_within_epoch := 5,
                payload_raw := [9] })).payload_ = none ∧
      (TailRecord.ofZeroCopied
        { log_id := 2, lsn := 3, timestamp := 4, u := 5,
          flags := TailRecordHeader.OFFSET_WITHIN_EPOCH }
        (some { lsn := 3, flags := 0, timestamp := 4, offset_within_epoch := 5,
                payload_raw := [9] })).zero_copied_record_ = none) :=
  ctors_discard_payload_without_flag _ _ _ (by decide)

theorem decodeHeader_of_append (bs rest : List Nat) (h : bs.length = 40) :
    decodeHeader (bs ++ rest) = decodeHeader bs := by
  rw [decodeHeader, decodeHeader]
  have hd8 : (bs.drop 8).length = 32 := by rw [List.length_drop, h]
  have hd16 : (bs.drop 16).length = 24 := by rw [List.length_drop, h]
  have hd24 : (bs.drop 24).length = 16 := by rw [List.length_drop, h]
  have hd32 : (bs.drop 32).length = 8 := by rw [List.length_drop, h]
  rw [List.take_append_of_le_length (by omega),
    List.drop_append_of_le_length (show 8 ≤ bs.length by omega),
    List.take_append_of_le_length (by omega),
    List.drop_append_of_le_length (show 16 ≤ bs.length by omega),
    List.take_append_of_le_length (by omega),
    List.drop_append_of_le_length (show 24 ≤ bs.length by omega),
    List.take_append_of_le_length (by omega),
    List.drop_append_of_le_length (show 32 ≤ bs.length by omega),
    List.take_append_of_le_length (by omega)]

/-- Claim C5: `INCLUDE_BLOB` lives only on the wire. Deserialize always
returns a record whose header has the bit clear (on every path), and
serialize writes a header copy carrying the bit exactly when the record has a
payload — the record itself is untouched, serialize being a pure function of
it. -/
theorem include_blob_wire_only :
    (∀ (r0 : TailRecord) (rd0 : ProtocolReader) (zc : Bool),
      (TailRecord.deserialize r0 rd0 zc).1.header.flags &&&
        TailRecordHeader.INCLUDE_BLOB = 0) ∧
    (∀ (r : TailRecord) (w : ProtocolWriter),
      r.isValid = true → w.err = none → headerInRange r.header →
      r.getPayloadSlice.length + 4 < 2 ^ 32 →
      decodeHeader ((r.serialize w).sink.drop w.sink.length) =
        { r.header with flags := r.header.flags |||
            (if r.hasPayload then TailRecordHeader.INCLUDE_BLOB else 0) }) := by
  constructor
  · exact deserialize_ib_clear
  · intro r w hval herr hrange hlen
    rw [serialize_eq_writeB r w hval, ProtocolWriter.writeB]
    rw [show w.err.isSome = false from by rw [herr]; rfl]
    simp only [Bool.false_eq_true, if_false]
    rw [List.drop_left]
    obtain ⟨h1, h2, h3, h4, h5⟩ := hrange
    by_cases hp : r.hasPayload
    · have hbs : r.calculateBlobSize = r.getPayloadSlice.length + 4 :=
        calculateBlobSize_of_payload r hp hlen
      rw [wireOf, if_pos (by omega)]
      have hwr : headerInRange { r.header with
          flags := r.header.flags ||| TailRecordHeader.INCLUDE_BLOB } :=
        ⟨h1, h2, h3, h4, Nat.or_lt_two_pow h5 (by decide)⟩
      rw [decodeHeader_of_append _ _ (headerBytes_length _),
        decodeHeader_headerBytes _ hwr, if_pos hp]
    · have hbs : r.calculateBlobSize = 0 := calculateBlobSize_of_no_payload r
        (by simpa using hp)
      rw [wireOf, if_neg (by omega)]
      rw [decodeHeader_headerBytes _ ⟨h1, h2, h3, h4, h5⟩]
      rw [if_neg hp, Nat.or_zero]

/-- Witness for C5's serialize half: a concrete valid one-byte-payload record
and an empty writer. -/
theorem include_blob_wire_only_witness :
    decodeHeader ((TailRecord.serialize
        { header := { log_id := 1, lsn := 2, timestamp := 3, u := 4,
                      flags := TailRecordHeader.HAS_PAYLOAD }
          payload_ := some { bytes := [42], evbuffer := false }
          zero_copied_record_ := none }
        { sink := [], err := none }).sink.drop 0) =
      { log_id := 1, lsn := 2, timestamp := 3, u := 4,
        flags := TailRecordHeader.HAS_PAYLOAD |||
          TailRecordHeader.INCLUDE_BLOB } := by
  have h := include_blob_wire_only.2
    { header := { log_id := 1, lsn := 2, timestamp := 3, u := 4,
                  flags := TailRecordHeader.HAS_PAYLOAD }
      payload_ := some { bytes := [42], evbuffer := false }
      zero_copied_record_ := none }
    { sink := [], err := none }
    (by decide) rfl (by decide) (by decide)
  simpa using h

/-- Claim C3 (amended): if, after the header and blob fields are read, the
bytes consumed since the baseline exceed the expected frame size — the header
size plus, when `blob_size > 0`, the `blob_size` field and `blob_size` more
bytes — the reader's error flag is set to `BADMSG` and deserialize returns
without consuming anything further. -/
theorem oversize_badmsg (r0 : TailRecord) (rd0 : ProtocolReader) (zc : Bool)
    (r : TailRecord) (rd : ProtocolReader) (bs : Nat)
    (hc : TailRecord.deserializeCore rd0 zc = (r, rd, bs))
    (he : rd.err = none)
    (hover : expectedRecordSizeInBuffer bs < rd.pos - rd0.pos) :
    TailRecord.deserialize r0 rd0 zc = (r, rd.setError ECode.BADMSG, none) := by
  rw [TailRecord.deserialize, hc]
  dsimp only
  unfold TailRecord.finishDeserialize
  rw [if_neg (by rw [he]; simp)]
  dsimp only
  rw [if_pos hover]

/-- Witness for C3 (amended): a frame whose header announces a blob
(`INCLUDE_BLOB` set) but whose `blob_size` field reads 0, so 44 bytes were
consumed against an expected frame of 40. -/
theorem oversize_badmsg_witness :
    TailRecord.deserialize emptyTailRecord
      ⟨headerBytes cHdrIB ++ leBytes 4 0, 0, none, false⟩ false =
      ({ header := { log_id := 0, lsn := 1, timestamp := 0, u := 0, flags := 0 },
         payload_ := none, zero_copied_record_ := none },
       ProtocolReader.setError
         ⟨headerBytes cHdrIB ++ leBytes 4 0, 44, none, false⟩
         ECode.BADMSG, none) :=
  oversize_badmsg emptyTailRecord
    ⟨headerBytes cHdrIB ++ leBytes 4 0, 0, none, false⟩ false
    { header := { log_id := 0, lsn := 1, timestamp := 0, u := 0, flags := 0 },
      payload_ := none, zero_copied_record_ := none }
    ⟨headerBytes cHdrIB ++ leBytes 4 0, 44, none, false⟩ 0
    (by decide) (by decide) (by decide)

/-- Counterexample for C3 as stated: deserializing the frame serialize emits
for a valid one-byte-payload record consumes 49 bytes — more than the
claim's `header_size + blob_size` bound of 45 — yet succeeds with no reader
error, because the implementation's expected frame size also counts the
4-byte `blob_size` field itself. -/
theorem oversize_claim_counterexample :
    (TailRecord.deserializeCore
        ⟨(cPayloadRecord.serialize { sink := [], err := none }).sink,
          0, none, false⟩ false).2.2 = 5 ∧
      (TailRecord.deserialize emptyTailRecord
        ⟨(cPayloadRecord.serialize { sink := [], err := none }).sink,
          0, none, false⟩ false).2.1.pos = 49 ∧
      TailRecordHeader.sizeBytes + 5 < 49 ∧
      (TailRecord.deserialize emptyTailRecord
        ⟨(cPayloadRecord.serialize { sink := [], err := none }).sink,
          0, none, false⟩ false).2.1.err = none := by
  refine ⟨by decide, by decide, by decide, by decide⟩

/-- Claim C8 (amended): the record is reset once at entry, so when the
initial header read fails the record comes back empty (cleared header, no
payload backing) with `BADMSG` surfaced; failure paths after the header was
read may instead leave header fields (and a payload backing) populated. -/
theorem deserialize_reset_on_header_read_failure (r0 : TailRecord)
    (rd0 : ProtocolReader) (zc : Bool)
    (hrb : (ProtocolReader.readBytes TailRecordHeader.sizeBytes rd0).1 = none) :
    (TailRecord.deserialize r0 rd0 zc).1 = emptyTailRecord ∧
      (TailRecord.deserialize r0 rd0 zc).2.2 = some ECode.BADMSG := by
  have herr := readBytes_none_err TailRecordHeader.sizeBytes rd0 hrb
  rw [TailRecord.deserialize, TailRecord.deserializeCore]
  rcases hr : ProtocolReader.readBytes TailRecordHeader.sizeBytes rd0 with ⟨o, rd1⟩
  rw [hr] at hrb herr
  dsimp only at hrb herr
  subst hrb
  dsimp only
  unfold TailRecord.finishDeserialize
  rw [if_pos herr]
  exact ⟨rfl, rfl⟩

/-- Witness for C8 (amended): a 10-byte input that cannot hold the 40-byte
header. -/
theorem deserialize_reset_on_header_read_failure_witness :
    (TailRecord.deserialize emptyTailRecord
        ⟨[1, 2, 3, 4, 5, 6, 7, 8, 9, 10], 0, none, false⟩ true).1 =
      emptyTailRecord ∧
      (TailRecord.deserialize emptyTailRecord
        ⟨[1, 2, 3, 4, 5, 6, 7, 8, 9, 10], 0, none, false⟩ true).2.2 =
        some ECode.BADMSG :=
  deserialize_reset_on_header_read_failure emptyTailRecord
    ⟨[1, 2, 3, 4, 5, 6, 7, 8, 9, 10], 0, none, false⟩ true (by decide)

/-- Counterexample for C8 as stated: when the header read succeeds but the
`blob_size` read fails (a stream read error surfaced as `BADMSG`, not the
size-mismatch check), deserialize returns with the decoded header still
populated (lsn 1, `HAS_PAYLOAD` set) and an owned payload backing attached —
the record is not reset to empty. -/
theorem read_error_record_not_reset_counterexample :
    (TailRecord.deserialize emptyTailRecord
        ⟨headerBytes cHdrIBHP, 0, none, false⟩ false).2.2 = some ECode.BADMSG ∧
      (TailRecord.deserialize emptyTailRecord
        ⟨headerBytes cHdrIBHP, 0, none, false⟩ false).1.header.lsn = 1 ∧
      (TailRecord.deserialize emptyTailRecord
        ⟨headerBytes cHdrIBHP, 0, none, false⟩ false).1.payload_ =
        some { bytes := [], evbuffer := false } ∧
      (TailRecord.deserialize emptyTailRecord
        ⟨headerBytes cHdrIBHP, 0, none, false⟩ false).1 ≠ emptyTailRecord := by
  refine ⟨by decide, by decide, by decide, by decide⟩

/-- Claim C4: when deserialize completes without error, the reader's
trailing-bytes policy is set to "allow" exactly when the record's header
(the decoded header, `INCLUDE_BLOB` already stripped) carries a flag bit
outside `ALL_KNOWN_FLAGS`, and exactly
`bytes_expected - bytes_consumed` further padding bytes are consumed, so the
cursor lands at the frame boundary `baseline + bytes_expected`. -/
theorem deserialize_trailing_policy (r0 : TailRecord) (rd0 : ProtocolReader)
    (zc : Bool) (r : TailRecord) (rd : ProtocolReader) (bs : Nat)
    (hc : TailRecord.deserializeCore rd0 zc = (r, rd, bs))
    (hok : (TailRecord.deserialize r0 rd0 zc).2.1.err = none) :
    (TailRecord.deserialize r0 rd0 zc).2.1.allowTrailing =
      (r.header.flags &&&
        (FLAGS_MASK ^^^ TailRecordHeader.ALL_KNOWN_FLAGS) != 0) ∧
      (TailRecord.deserialize r0 rd0 zc).2.1.pos =
        rd.pos + (expectedRecordSizeInBuffer bs - (rd.pos - rd0.pos)) ∧
      (TailRecord.deserialize r0 rd0 zc).2.1.pos =
        rd0.pos + expectedRecordSizeInBuffer bs := by
  rw [TailRecord.deserialize, hc] at hok ⊢
  dsimp only at hok ⊢
  unfold TailRecord.finishDeserialize at hok ⊢
  by_cases h1 : rd.err.isSome = true
  · rw [if_pos h1] at hok
    dsimp only at hok
    rw [hok] at h1
    simp at h1
  · have he : rd.err = none := by
      cases hrd : rd.err
      · rfl
      · rw [hrd] at h1
        simp at h1
    rw [if_neg h1] at hok ⊢
    dsimp only at hok ⊢
    by_cases h2 : expectedRecordSizeInBuffer bs < rd.pos - rd0.pos
    · rw [if_pos h2] at hok
      simp [ProtocolReader.setError] at hok
    · rw [if_neg h2] at hok ⊢
      have hmono : rd0.pos ≤ rd.pos := by
        have h := core_pos_mono rd0 zc
        rw [hc] at h
        exact h
      rcases hfl : (r.header.flags &&&
          (FLAGS_MASK ^^^ TailRecordHeader.ALL_KNOWN_FLAGS) != 0) with _ | _
      · rw [if_neg (by simp [hfl])] at hok ⊢
        rw [ProtocolReader.drainBytes] at hok ⊢
        dsimp only at hok ⊢
        rw [if_neg (by rw [he]; simp)] at hok ⊢
        by_cases h3 : rd.pos + (expectedRecordSizeInBuffer bs -
            (rd.pos - rd0.pos)) ≤ rd.data.length
        · rw [if_pos h3]
          refine ⟨rfl, rfl, ?_⟩
          dsimp only
          omega
        · rw [if_neg h3] at hok
          simp at hok
      · rw [if_pos (by simp [hfl])] at hok ⊢
        rw [ProtocolReader.drainBytes] at hok ⊢
        dsimp only at hok ⊢
        rw [if_neg (by rw [he]; simp)] at hok ⊢
        by_cases h3 : rd.pos + (expectedRecordSizeInBuffer bs -
            (rd.pos - rd0.pos)) ≤ rd.data.length
        · rw [if_pos h3]
          refine ⟨rfl, rfl, ?_⟩
          dsimp only
          omega
        · rw [if_neg h3] at hok
          simp at hok

/-- Witness for C4: a header-only frame with an unknown flag bit, followed by
two unexpected trailing bytes; deserialize succeeds, switches the reader to
allow trailing bytes, and leaves the cursor at the 40-byte frame boundary. -/
theorem deserialize_trailing_policy_witness :
    (TailRecord.deserialize emptyTailRecord
        ⟨headerBytes cHdrUnknown ++ [99, 98], 0, none, false⟩ false).2.1.allowTrailing =
      (cHdrUnknown.flags &&&
        (FLAGS_MASK ^^^ TailRecordHeader.ALL_KNOWN_FLAGS) != 0) ∧
      (TailRecord.deserialize emptyTailRecord
        ⟨headerBytes cHdrUnknown ++ [99, 98], 0, none, false⟩ false).2.1.pos =
        40 + (expectedRecordSizeInBuffer 0 - (40 - 0)) ∧
      (TailRecord.deserialize emptyTailRecord
        ⟨headerBytes cHdrUnknown ++ [99, 98], 0, none, false⟩ false).2.1.pos =
        0 + expectedRecordSizeInBuffer 0 :=
  deserialize_trailing_policy emptyTailRecord
    ⟨headerBytes cHdrUnknown ++ [99, 98], 0, none, false⟩ false
    { header := cHdrUnknown, payload_ := none, zero_copied_record_ := none }
    ⟨headerBytes cHdrUnknown ++ [99, 98], 40, none, false⟩ 0
    (by decide) (by decide)

/-- Claim C1: for a valid record (in-range header fields, `INCLUDE_BLOB`
clear as the in-memory invariant requires, payload within the 32-bit frame
bound), deserializing the bytes serialize produced — in either zero-copy
mode — succeeds and yields a record with the same content and with
`INCLUDE_BLOB` clear. -/
theorem serialize_deserialize_roundtrip (r r0 : TailRecord) (zc b : Bool)
    (hval : r.isValid = true)
    (hib : r.header.flags &&& TailRecordHeader.INCLUDE_BLOB = 0)
    (hrange : headerInRange r.header)
    (hlen : r.getPayloadSlice.length + 4 < 2 ^ 32) :
    ((TailRecord.deserialize r0
        ⟨(r.serialize { sink := [], err := none }).sink, 0, none, b⟩
        zc).1.sameContent r = true) ∧
      ((TailRecord.deserialize r0
        ⟨(r.serialize { sink := [], err := none }).sink, 0, none, b⟩
        zc).1.header.flags &&& TailRecordHeader.INCLUDE_BLOB = 0) ∧
      ((TailRecord.deserialize r0
        ⟨(r.serialize { sink := [], err := none }).sink, 0, none, b⟩
        zc).2.1.err = none) := by
  obtain ⟨hr1, hr2, hr3, hr4, hr5⟩ := hrange
  have hsink : (r.serialize { sink := [], err := none }).sink = wireOf r := by
    rw [serialize_eq_writeB r _ hval, ProtocolWriter.writeB]
    simp
  rw [hsink]
  by_cases hp : r.hasPayload = true
  · have hbs := calculateBlobSize_of_payload r hp hlen
    have hw : wireOf r =
        headerBytes
          { log_id := r.header.log_id, lsn := r.header.lsn,
                      timestamp := r.header.timestamp, u := r.header.u,
                      flags := r.header.flags ||| TailRecordHeader.INCLUDE_BLOB } ++
          (leBytes 4 (r.getPayloadSlice.length + 4) ++
            (leBytes 4 r.getPayloadSlice.length ++
              (r.getPayloadSlice ++ []))) := by
      rw [wireOf, if_pos (by omega), hbs, Nat.mod_eq_of_lt (by omega),
        List.append_nil]
    have hrw : headerInRange
        { log_id := r.header.log_id, lsn := r.header.lsn,
                      timestamp := r.header.timestamp, u := r.header.u,
                      flags := r.header.flags ||| TailRecordHeader.INCLUDE_BLOB } :=
      ⟨hr1, hr2, hr3, hr4, Nat.or_lt_two_pow hr5 (by decide)⟩
    have hibw : ({ log_id := r.header.log_id, lsn := r.header.lsn,
                      timestamp := r.header.timestamp, u := r.header.u,
                      flags := r.header.flags ||| TailRecordHeader.INCLUDE_BLOB } :
        TailRecordHeader).flags &&& TailRecordHeader.INCLUDE_BLOB ≠ 0 := by
      dsimp only
      rw [flags_or_ib_detected]
      decide
    have hhpw : ({ log_id := r.header.log_id, lsn := r.header.lsn,
                      timestamp := r.header.timestamp, u := r.header.u,
                      flags := r.header.flags ||| TailRecordHeader.INCLUDE_BLOB } :
        TailRecordHeader).flags &&& TailRecordHeader.HAS_PAYLOAD ≠ 0 := by
      dsimp only
      rw [flags_or_ib_has_payload]
      have hp2 : (r.header.flags &&& TailRecordHeader.HAS_PAYLOAD != 0) = true := hp
      simpa [bne_iff_ne] using hp2
    have hE : expectedRecordSizeInBuffer (r.getPayloadSlice.length + 4) =
        48 + r.getPayloadSlice.length := by
      rw [expectedRecordSizeInBuffer, if_pos (by omega),
        TailRecordHeader.sizeBytes]
      omega
    have hdl : (headerBytes
          { log_id := r.header.log_id, lsn := r.header.lsn,
                      timestamp := r.header.timestamp, u := r.header.u,
                      flags := r.header.flags ||| TailRecordHeader.INCLUDE_BLOB } ++
        (leBytes 4 (r.getPayloadSlice.length + 4) ++
          (leBytes 4 r.getPayloadSlice.length ++
            (r.getPayloadSlice ++ [])))).length =
        48 + r.getPayloadSlice.length := by
      simp only [List.length_append, headerBytes_length, leBytes_length,
        List.length_nil]
      omega
    rcases hzc : (if (r.getPayloadSlice.length == 0) then false else zc)
        with _ | _
    · have hcore := core_run_blob_owned
        { log_id := r.header.log_id, lsn := r.header.lsn,
                      timestamp := r.header.timestamp, u := r.header.u,
                      flags := r.header.flags ||| TailRecordHeader.INCLUDE_BLOB }
        r.getPayloadSlice [] b zc (r.getPayloadSlice.length + 4)
        r.getPayloadSlice.length hrw hibw hhpw (by omega) (by omega) rfl hzc
      rw [hw, TailRecord.deserialize, hcore]
      dsimp only
      have hrec : recordAfterClear
          { log_id := r.header.log_id, lsn := r.header.lsn,
                      timestamp := r.header.timestamp, u := r.header.u,
                      flags := r.header.flags ||| TailRecordHeader.INCLUDE_BLOB }
          (some { bytes := r.getPayloadSlice, evbuffer := false }) none =
          { header := r.header
            payload_ := some { bytes := r.getPayloadSlice, evbuffer := false }
            zero_copied_record_ := none } := by
        rw [recordAfterClear]
        dsimp only
        rw [flags_or_ib_clear r.header.flags hr5 hib]
      rw [hrec]
      rw [finish_run 0 _ _ (48 + r.getPayloadSlice.length)
        (48 + r.getPayloadSlice.length) b (r.getPayloadSlice.length + 4) _
        (by have := hE; omega) (by have := hE; omega)
        (by have h1 := hE; have h2 := hdl; omega) rfl]
      refine ⟨?_, hib, rfl⟩
      have hs : TailRecord.getPayloadSlice
          { header := r.header
            payload_ := some { bytes := r.getPayloadSlice, evbuffer := false }
            zero_copied_record_ := none } = r.getPayloadSlice := by
        have hpf : hasPayloadFlags r.header.flags = true := hp
        rw [TailRecord.getPayloadSlice]
        simp [TailRecord.hasPayload, hpf, PayloadHolder.getFlatPayload]
      exact sameContent_of_valid _ _ hval hval rfl hs
    · have hcore := core_run_blob_zerocopy
        { log_id := r.header.log_id, lsn := r.header.lsn,
                      timestamp := r.header.timestamp, u := r.header.u,
                      flags := r.header.flags ||| TailRecordHeader.INCLUDE_BLOB }
        r.getPayloadSlice [] b zc (r.getPayloadSlice.length + 4)
        r.getPayloadSlice.length hrw hibw hhpw (by omega) (by omega) rfl hzc
      rw [hw, TailRecord.deserialize, hcore]
      dsimp only
      have hrec : recordAfterClear
          { log_id := r.header.log_id, lsn := r.header.lsn,
                      timestamp := r.header.timestamp, u := r.header.u,
                      flags := r.header.flags ||| TailRecordHeader.INCLUDE_BLOB }
          none
          (some { lsn := r.header.lsn, flags := 0,
                  timestamp := r.header.timestamp,
                  offset_within_epoch := r.header.u,
                  payload_raw := r.getPayloadSlice }) =
          { header := r.header
            payload_ := none
            zero_copied_record_ :=
              some { lsn := r.header.lsn, flags := 0,
                     timestamp := r.header.timestamp,
                     offset_within_epoch := r.header.u,
                     payload_raw := r.getPayloadSlice } } := by
        rw [recordAfterClear]
        dsimp only
        rw [flags_or_ib_clear r.header.flags hr5 hib]
      rw [hrec]
      rw [finish_run 0 _ _ (48 + r.getPayloadSlice.length)
        (48 + r.getPayloadSlice.length) b (r.getPayloadSlice.length + 4) _
        (by have := hE; omega) (by have := hE; omega)
        (by have h1 := hE; have h2 := hdl; omega) rfl]
      refine ⟨?_, hib, rfl⟩
      have hs : TailRecord.getPayloadSlice
          { header := r.header
            payload_ := none
            zero_copied_record_ :=
              some { lsn := r.header.lsn, flags := 0,
                     timestamp := r.header.timestamp,
                     offset_within_epoch := r.header.u,
                     payload_raw := r.getPayloadSlice } } =
          r.getPayloadSlice := by
        have hpf : hasPayloadFlags r.header.flags = true := hp
        rw [TailRecord.getPayloadSlice]
        simp [TailRecord.hasPayload, hpf]
      exact sameContent_of_valid _ _ hval hval rfl hs
  · have hb0 : r.calculateBlobSize = 0 :=
      calculateBlobSize_of_no_payload r (by simpa using hp)
    have hw : wireOf r = headerBytes r.header ++ [] := by
      rw [wireOf, if_neg (by omega), List.append_nil]
    rw [hw, TailRecord.deserialize,
      core_run_no_blob r.header [] b zc ⟨hr1, hr2, hr3, hr4, hr5⟩ hib]
    dsimp only
    rw [finish_run 0 _ _ 40 40 b 0 _
      (by have he0 : expectedRecordSizeInBuffer 0 = 40 := by decide
          omega)
      (by have he0 : expectedRecordSizeInBuffer 0 = 40 := by decide
          omega)
      (by simp only [List.length_append, headerBytes_length, List.length_nil]
          omega) rfl]
    refine ⟨?_, hib, rfl⟩
    have hs : TailRecord.getPayloadSlice
        { header := r.header, payload_ := none, zero_copied_record_ := none } =
        r.getPayloadSlice := by
      have hpf : hasPayloadFlags r.header.flags = false := by
        simp only [TailRecord.hasPayload] at hp
        exact Bool.not_eq_true _ ▸ (by simpa using hp)
      rw [TailRecord.getPayloadSlice, TailRecord.getPayloadSlice]
      simp [TailRecord.hasPayload, hpf]
    exact sameContent_of_valid _ _ hval hval rfl hs

/-- Witness for C1: round-tripping the concrete one-byte-payload record
through a zero-copy deserialize. -/
theorem serialize_deserialize_roundtrip_witness :
    ((TailRecord.deserialize emptyTailRecord
        ⟨(cPayloadRecord.serialize { sink := [], err := none }).sink,
          0, none, false⟩ true).1.sameContent cPayloadRecord = true) ∧
      ((TailRecord.deserialize emptyTailRecord
        ⟨(cPayloadRecord.serialize { sink := [], err := none }).sink,
          0, none, false⟩ true).1.header.flags &&&
          TailRecordHeader.INCLUDE_BLOB = 0) ∧
      ((TailRecord.deserialize emptyTailRecord
        ⟨(cPayloadRecord.serialize { sink := [], err := none }).sink,
          0, none, false⟩ true).2.1.err = none) :=
  serialize_deserialize_roundtrip cPayloadRecord emptyTailRecord true false
    (by decide) (by decide) (by decide) (by decide)
